import Mathlib

/-!
Verification of the task-processing core of the pft-nft-node repository.

The definitions below are a shallow embedding, in Lean, of the Python code in
`tasknode/task_processing/` (constants.py, user_context_parsing.py,
core_business_logic.py, utils.py).  Python strings are Lean `String`s,
pandas timestamps are `Nat`s, pandas DataFrames are Lean lists of records,
and the pandas sort is modelled as a stable insertion sort on the timestamp.
External collaborators (the SQL store, the LLM arbitration call) are modelled
by passing their inputs/outputs as explicit parameters, exactly at the
boundaries the code itself uses.
-/

namespace PftNode

/-! ### Generic string helpers (Python `in`, `strip`, `rstrip`) -/

/-- Python's `pat in s` substring test, on character lists. -/
def hasSubstrL (s pat : List Char) : Bool :=
  if pat.isPrefixOf s then true
  else
    match s with
    | [] => false
    | _ :: t => hasSubstrL t pat

/-- Python's `pat in s` substring test on strings. -/
def hasSubstr (s pat : String) : Bool :=
  hasSubstrL s.data pat.data

/-- Python's `str.rstrip()` (trailing-whitespace removal). -/
def rstrip (s : String) : String :=
  ⟨(s.data.reverse.dropWhile Char.isWhitespace).reverse⟩

/-- Python's `str.strip()` (leading and trailing whitespace removal). -/
def pyStrip (s : String) : String :=
  ⟨(s.data.dropWhile Char.isWhitespace).reverse.dropWhile Char.isWhitespace |>.reverse⟩

/-! ### The task-type registry (`tasknode/task_processing/constants.py`) -/

/-- The `TaskType` enum: task-related memo types for workflow management. -/
inductive TaskType where
  | REQUEST_POST_FIAT
  | PROPOSAL
  | ACCEPTANCE
  | REFUSAL
  | TASK_OUTPUT
  | IMAGE_GEN
  | IMAGE_GEN_RESPONSE
  | VERIFICATION_PROMPT
  | VERIFICATION_RESPONSE
  | REWARD
  deriving DecidableEq, Repr, Fintype

/-- The `.value` of each `TaskType` member (the memo-data stage literal). -/
def TaskType.value : TaskType → String
  | .REQUEST_POST_FIAT => "REQUEST_POST_FIAT ___ "
  | .PROPOSAL => "PROPOSED PF ___ "
  | .ACCEPTANCE => "ACCEPTANCE REASON ___ "
  | .REFUSAL => "REFUSAL REASON ___ "
  | .TASK_OUTPUT => "COMPLETION JUSTIFICATION ___ "
  | .IMAGE_GEN => "GENERATE IMAGE ___"
  | .IMAGE_GEN_RESPONSE => "IMAGE RESPONSE ___"
  | .VERIFICATION_PROMPT => "VERIFICATION PROMPT ___ "
  | .VERIFICATION_RESPONSE => "VERIFICATION RESPONSE ___ "
  | .REWARD => "REWARD RESPONSE __ "

/-- The `.name` of each `TaskType` member (the Python enum member name). -/
def TaskType.name : TaskType → String
  | .REQUEST_POST_FIAT => "REQUEST_POST_FIAT"
  | .PROPOSAL => "PROPOSAL"
  | .ACCEPTANCE => "ACCEPTANCE"
  | .REFUSAL => "REFUSAL"
  | .TASK_OUTPUT => "TASK_OUTPUT"
  | .IMAGE_GEN => "IMAGE_GEN"
  | .IMAGE_GEN_RESPONSE => "IMAGE_GEN_RESPONSE"
  | .VERIFICATION_PROMPT => "VERIFICATION_PROMPT"
  | .VERIFICATION_RESPONSE => "VERIFICATION_RESPONSE"
  | .REWARD => "REWARD"

/-- `TASK_PATTERNS`: the proposal entry is listed with both the " .. " marker
and the stage literal; every other task type has just its stage literal. -/
def TASK_PATTERNS : TaskType → List String
  | .PROPOSAL => [" .. ", TaskType.PROPOSAL.value]
  | t => [t.value]

/-- Iteration order of the `TASK_PATTERNS` dict in the source: `PROPOSAL` was
inserted explicitly first, then the `for task_type in TaskType` loop appended
the remaining members in enum-definition order. -/
def CLASSIFY_ORDER : List TaskType :=
  [.PROPOSAL, .REQUEST_POST_FIAT, .ACCEPTANCE, .REFUSAL, .TASK_OUTPUT,
   .IMAGE_GEN, .IMAGE_GEN_RESPONSE, .VERIFICATION_PROMPT,
   .VERIFICATION_RESPONSE, .REWARD]

/-! ### The memo classifier (`UserTaskParser.classify_task_string`) -/

/-- `UserTaskParser.classify_task_string`: returns the name of the first task
type (in `TASK_PATTERNS` iteration order) one of whose patterns occurs in the
string, and `"UNKNOWN"` when no pattern matches. -/
def classify_task_string (s : String) : String :=
  match CLASSIFY_ORDER.find? (fun t => (TASK_PATTERNS t).any (fun p => hasSubstr s p)) with
  | some t => t.name
  | none => "UNKNOWN"

/-! ### Task-id recognition (`UserTaskParser.is_valid_id`) -/

/-- Does the character list start with the task-id pattern
`\d{4}-\d{2}-\d{2}_\d{2}:\d{2}`?  (The optional `(?:__[A-Z0-9]{4})?` suffix of
the source regex can always match the empty string, so it never affects
whether `re.search` finds a match.) -/
def taskIdAt : List Char → Bool
  | a :: b :: c :: d :: '-' :: e :: f :: '-' :: g :: h :: '_' :: i :: j :: ':' :: k :: l :: _ =>
    a.isDigit && b.isDigit && c.isDigit && d.isDigit && e.isDigit && f.isDigit
      && g.isDigit && h.isDigit && i.isDigit && j.isDigit && k.isDigit && l.isDigit
  | _ => false

/-- `re.search` of the task-id pattern: a match at some position. -/
def taskIdSearch : List Char → Bool
  | [] => false
  | c :: t => taskIdAt (c :: t) || taskIdSearch t

/-- `UserTaskParser.is_valid_id`: false for empty input, otherwise a regex
search for `\d{4}-\d{2}-\d{2}_\d{2}:\d{2}(?:__[A-Z0-9]{4})?`. -/
def is_valid_id (memo_type : String) : Bool :=
  if memo_type = "" then false
  else taskIdSearch memo_type.data

/-! ### Regex-literal plumbing (`core_business_logic.py` memo patterns and
`utils.regex_to_sql_pattern`) -/

/-- The character set escaped by Python 3.7+ `re.escape`
(CPython's `_special_chars_map`). -/
def reSpecial (c : Char) : Bool :=
  c = '(' || c = ')' || c = '[' || c = ']' || c = '{' || c = '}' || c = '?'
    || c = '*' || c = '+' || c = '-' || c = '|' || c = '^' || c = '$'
    || c = '\\' || c = '.' || c = '&' || c = '~' || c = '#' || c = ' '
    || c = '\t' || c = '\n' || c = '\r' || c = '\x0b' || c = '\x0c'

/-- Python `re.escape`: backslash-escape every special character. -/
def reEscape (s : String) : String :=
  ⟨s.data.flatMap (fun c => if reSpecial c then ['\\', c] else [c])⟩

/-- The pattern string of `REWARD_PATTERN.memo_data`:
`re.compile(f'.*{re.escape(TaskType.REWARD.value)}.*')`. -/
def REWARD_PATTERN_memo_data : String :=
  ".*" ++ reEscape TaskType.REWARD.value ++ ".*"

/-- The pattern string of `PROPOSAL_PATTERN.memo_data`:
`re.compile(f'.*{re.escape(TaskType.PROPOSAL.value.rstrip())}\\s?.*')`
(the trailing space of the literal is made optional to cover historical
data with inconsistent trailing spaces). -/
def PROPOSAL_PATTERN_memo_data : String :=
  ".*" ++ reEscape (rstrip TaskType.PROPOSAL.value) ++ "\\s?" ++ ".*"

/-- The pattern string of `VERIFICATION_PROMPT_PATTERN.memo_data`. -/
def VERIFICATION_PROMPT_PATTERN_memo_data : String :=
  ".*" ++ reEscape TaskType.VERIFICATION_PROMPT.value ++ ".*"

/-- `re.sub(r'\\s\?', '', s)`: delete every (non-overlapping, left-to-right)
occurrence of the three characters `\s?`. -/
def removeBsSQ : List Char → List Char
  | '\\' :: 's' :: '?' :: rest => removeBsSQ rest
  | c :: rest => c :: removeBsSQ rest
  | [] => []

/-- The lazy group of `re.match(r'\.\*(.*?)\.\*', s)` after the leading `.*`:
the (shortest) prefix of the list that is followed by a literal `.*`. -/
def beforeDotStar : List Char → Option (List Char)
  | '.' :: '*' :: _ => some []
  | c :: rest => (beforeDotStar rest).map (fun l => c :: l)
  | [] => none

/-- `utils.regex_to_sql_pattern`: convert a `.*literal.*` regex pattern string
into a SQL LIKE pattern `%literal%`, dropping the `\s?` marker and all
escaping backslashes. -/
def regex_to_sql_pattern (pattern : String) : String :=
  let s := removeBsSQ pattern.data
  match s with
  | '.' :: '*' :: rest =>
    match beforeDotStar rest with
    | some mid => ⟨'%' :: (mid.filter (fun c => c ≠ '\\')) ++ ['%']⟩
    | none => ⟨'%' :: s ++ ['%']⟩
  | _ => ⟨'%' :: s ++ ['%']⟩

/-! ### SQL LIKE matching (semantics of the `memo_data LIKE pattern` filters
executed by the external store; `%` matches any sequence, `_` any single
character) -/

/-- Try `f` on every suffix of the list (the `%` wildcard). -/
def anySuffix (f : List Char → Bool) : List Char → Bool
  | [] => f []
  | c :: t => f (c :: t) || anySuffix f t

/-- SQL LIKE pattern matching on character lists. -/
def likeMatchL : List Char → List Char → Bool
  | [], s => s.isEmpty
  | '%' :: p, s => anySuffix (likeMatchL p) s
  | c :: p, s =>
    match s with
    | [] => false
    | d :: t => (c = '_' || c = d) && likeMatchL p t

/-- SQL `s LIKE pat` on strings. -/
def sqlLike (pat s : String) : Bool :=
  likeMatchL pat.data s.data

/-! ### The per-account event frame and its stable timestamp sort -/

/-- One row of the per-account memo-history DataFrame handed to
`UserTaskParser.get_task_state_pairs`: the fields the reducer touches. -/
structure Memo where
  memo_type : String
  memo_data : String
  memo_format : String
  datetime : Nat
  deriving DecidableEq, Repr

/-- Insert a row into a timestamp-sorted list, before the first row whose
timestamp is not smaller (so that, combined with `sortByDt`'s fold, earlier
input rows stay before equal-timestamp later rows: a stable sort, modelling
`DataFrame.sort_values('datetime')`). -/
def insertByDt (a : Memo) : List Memo → List Memo
  | [] => [a]
  | b :: l => if a.datetime ≤ b.datetime then a :: b :: l else b :: insertByDt a l

/-- Stable sort of the event frame by the `datetime` column. -/
def sortByDt : List Memo → List Memo
  | [] => []
  | a :: l => insertByDt a (sortByDt l)

/-! ### The task-state reducer (`UserTaskParser.get_task_state_pairs`) -/

/-- A row of the filtered/renamed task frame: `memo_type → task_id`,
`memo_data → full_output`, `memo_format → user_account`, plus the
`task_type` column added by `filter_tasks`. -/
structure TaskRow where
  task_id : String
  full_output : String
  user_account : String
  datetime : Nat
  task_type : String
  deriving DecidableEq, Repr

/-- The rename + classify step of `filter_tasks`. -/
def toTaskRow (m : Memo) : TaskRow :=
  { task_id := m.memo_type, full_output := m.memo_data,
    user_account := m.memo_format, datetime := m.datetime,
    task_type := classify_task_string m.memo_data }

/-- `filter_tasks` applied to the datetime-sorted frame: keep rows whose
`memo_type` holds a task id, and classify each `memo_data`. -/
def taskRows (rows : List Memo) : List TaskRow :=
  ((sortByDt rows).filter (fun m => is_valid_id m.memo_type)).map toTaskRow

/-- The task types whose rows count as state changes in
`get_task_state_pairs` (the `isin` list). -/
def STATE_CHANGE_TYPES : List String :=
  [TaskType.ACCEPTANCE.name, TaskType.REFUSAL.name,
   TaskType.VERIFICATION_PROMPT.name, TaskType.REWARD.name]

/-- `groupby('task_id').first()['full_output']` over the proposal rows:
the first (earliest, ties by log order) proposal text for a task id. -/
def proposalOf (rows : List Memo) (tid : String) : Option String :=
  (((taskRows rows).filter
      (fun r => r.task_id = tid && r.task_type = TaskType.PROPOSAL.name)).head?).map
    (fun r => r.full_output)

/-- `groupby('task_id').last()` over the state-change rows: the last
(latest, ties by log order) state-change row for a task id. -/
def lastStateChange (rows : List Memo) (tid : String) : Option TaskRow :=
  ((taskRows rows).filter
      (fun r => r.task_id = tid && STATE_CHANGE_TYPES.contains r.task_type)).getLast?

/-- One row of the `task_pairs` DataFrame returned by
`get_task_state_pairs`. `datetime = none` models the `NaT` fill. -/
structure TaskRecord where
  proposal : String
  state_type : String
  latest_state : String
  datetime : Option Nat
  deriving DecidableEq, Repr

/-- The record `get_task_state_pairs` derives for one task id (`none` when
the id is absent from the output index): proposal ids start in `PROPOSAL`
state with empty `latest_state`/`NaT` datetime; ids with state changes get
the last state-change row's fields; orphaned state changes (no proposal)
are kept with an empty proposal. -/
def taskRecordOf (rows : List Memo) (tid : String) : Option TaskRecord :=
  match proposalOf rows tid, lastStateChange rows tid with
  | some p, some sc =>
    some { proposal := p, state_type := sc.task_type,
           latest_state := sc.full_output, datetime := some sc.datetime }
  | some p, none =>
    some { proposal := p, state_type := TaskType.PROPOSAL.name,
           latest_state := "", datetime := none }
  | none, some sc =>
    some { proposal := "", state_type := sc.task_type,
           latest_state := sc.full_output, datetime := some sc.datetime }
  | none, none => none

/-! ### Transactions, response queries and response parameters
(`nodetools.models.models` data carriers, as used by the rules in
`core_business_logic.py`) -/

/-- The fields of a request transaction dict consumed by the rules. -/
structure Tx where
  account : String
  destination : String
  close_time_iso : String
  memo_type : String
  memo_data : String
  deriving DecidableEq, Repr

/-- The parameter dict a `find_response` query descriptor carries. -/
structure ResponseQueryParams where
  account : String
  destination : String
  request_time : String
  response_memo_type : String
  response_memo_data : String
  deriving DecidableEq, Repr

/-- A `ResponseQuery` descriptor: the parameters, plus the
`require_after_request` argument of `find_transaction_response` (written as
the SQL literal `TRUE` directly inside the query text of
`VerificationResponseRule.find_response`). -/
structure ResponseQuery where
  params : ResponseQueryParams
  require_after_request : Bool
  deriving DecidableEq, Repr

/-- The memo triple built by `construct_memo`. -/
structure MemoTriple where
  memo_data : String
  memo_format : String
  memo_type : String
  deriving DecidableEq, Repr

/-- `ResponseParameters`: what the node will send back. -/
structure ResponseParameters where
  source : String
  memo : MemoTriple
  destination : String
  pft_amount : Int
  deriving DecidableEq, Repr

/-! ### `VerificationResponseRule.find_response` -/

/-- `VerificationResponseRule.find_response`: the query descriptor for
locating an existing Reward response to a verification-response request.
The SQL text fixes `require_after_request := TRUE`; the parameters carry the
request's account, destination and close time, its own `memo_type` as the
response memo type, and the Reward literal's SQL LIKE pattern. -/
def VerificationResponseRule.find_response (request_tx : Tx) : ResponseQuery :=
  { params :=
      { account := request_tx.account,
        destination := request_tx.destination,
        request_time := request_tx.close_time_iso,
        response_memo_type := request_tx.memo_type,
        response_memo_data := regex_to_sql_pattern REWARD_PATTERN_memo_data },
    require_after_request := true }

/-! ### `InitiationRiteRule` -/

/-- `InitiationRiteRule.is_valid_initiation_rite`: false for an empty (falsy)
string; otherwise strip whitespace and require at least 10 characters. -/
def InitiationRiteRule.is_valid_initiation_rite (rite_text : String) : Bool :=
  if rite_text = "" then false
  else
    let cleaned_rite := pyStrip rite_text
    if cleaned_rite.length < 10 then false
    else true

/-- `InitiationRiteRule.validate` (with `REQUIRE_AUTHORIZATION = False` as in
the source): the transaction must be addressed to the node address and carry
valid rite text. -/
def InitiationRiteRule.validate (node_address : String) (tx : Tx) : Bool :=
  if tx.destination ≠ node_address then false
  else InitiationRiteRule.is_valid_initiation_rite tx.memo_data

/-! ### Python `str.split(sep)` (structural, so terms evaluate by kernel
reduction) -/

/-- Split worker: the fuel is an upper bound on the list length, consumed
structurally; `sep` is nonempty. -/
def pySplitGo (sep : List Char) : Nat → List Char → List (List Char)
  | _, [] => [[]]
  | 0, s => [s]
  | Nat.succ n, c :: t =>
    if sep.isPrefixOf (c :: t) then
      [] :: pySplitGo sep n ((c :: t).drop sep.length)
    else
      match pySplitGo sep n t with
      | [] => [[c]]
      | h :: r => (c :: h) :: r

/-- Python `s.split(sep)` for a nonempty separator: non-overlapping,
left-to-right. -/
def pySplit (s sep : String) : List String :=
  (pySplitGo sep.data s.data.length s.data).map (fun l => ⟨l⟩)

/-- `sep.join(l)` (used for the reward-history lines). -/
def joinSep (sep : String) : List String → String
  | [] => ""
  | [a] => a
  | a :: t => a ++ sep ++ joinSep sep t

/-! ### Python `int()` parsing (for `_extract_pft_reward`) -/

/-- Digits of a Python int literal after the first: ASCII digits with single
underscores allowed between digits. -/
def pyDigitsCore (acc : Nat) : List Char → Option Nat
  | [] => some acc
  | '_' :: c :: rest =>
    if c.isDigit then pyDigitsCore (acc * 10 + (c.toNat - 48)) rest else none
  | c :: rest =>
    if c.isDigit then pyDigitsCore (acc * 10 + (c.toNat - 48)) rest else none

/-- A nonempty ASCII digit string (with `_` group separators) as a `Nat`. -/
def pyDigits : List Char → Option Nat
  | c :: rest => if c.isDigit then pyDigitsCore (c.toNat - 48) rest else none
  | [] => none

/-- Python `int(s)` on an already-stripped string: optional sign, then
digits; `none` models the `ValueError`. -/
def pyParseInt (s : String) : Option Int :=
  match s.data with
  | '+' :: rest => (pyDigits rest).map (fun n => (n : Int))
  | '-' :: rest => (pyDigits rest).map (fun n => -(n : Int))
  | l => (pyDigits l).map (fun n => (n : Int))

/-! ### `RewardResponseGenerator` -/

/-- `RewardResponseGenerator.MIN_REWARD_AMOUNT`. -/
def MIN_REWARD_AMOUNT : Int := 1

/-- `RewardResponseGenerator.MAX_REWARD_AMOUNT`. -/
def MAX_REWARD_AMOUNT : Int := 1200

/-- `RewardResponseGenerator.REWARD_PROCESSING_WINDOW` (days). -/
def REWARD_PROCESSING_WINDOW : Nat := 35

/-- `RewardResponseGenerator._extract_pft_reward`: take the text after the
last `| Total PFT Rewarded |` marker, drop `|` characters, strip, parse as an
int and clamp `abs` of it to `[MIN_REWARD_AMOUNT, MAX_REWARD_AMOUNT]`; any
parse failure yields `MIN_REWARD_AMOUNT`. -/
def extract_pft_reward (content : String) : Int :=
  let seg := (pySplit content "| Total PFT Rewarded |").getLastD content
  let cleaned := pyStrip ⟨seg.data.filter (fun c => c ≠ '|')⟩
  match pyParseInt cleaned with
  | some reward => min (max (reward.natAbs : Int) MIN_REWARD_AMOUNT) MAX_REWARD_AMOUNT
  | none => MIN_REWARD_AMOUNT

/-- `RewardResponseGenerator._extract_summary_judgement`: the text between
the last `| Summary Judgment |` marker and the next `|`, stripped. -/
def extract_summary_judgement (content : String) : String :=
  pyStrip ((pySplit ((pySplit content "| Summary Judgment |").getLastD content) "|").headD "")

/-- A row of the `decoded_memos` view, with the columns the reward-context
queries read. -/
structure DecodedMemo where
  memo_type : String
  memo_data : String
  account : String
  destination : String
  transaction_result : String
  datetime : Nat
  pft_absolute_amount : Int
  deriving DecidableEq, Repr

/-- The `WHERE` clause of the proposal-context query of
`RewardResponseGenerator._get_task_context`. -/
def isProposalContextRow (tx : Tx) (m : DecodedMemo) : Bool :=
  m.memo_type = tx.memo_type && m.transaction_result = "tesSUCCESS"
    && sqlLike (regex_to_sql_pattern PROPOSAL_PATTERN_memo_data) m.memo_data

/-- The `WHERE` clause of the verification-prompt query of
`RewardResponseGenerator._get_task_context` (the prompt was sent *to* the
requester, so its destination is the request's account). -/
def isPromptContextRow (tx : Tx) (m : DecodedMemo) : Bool :=
  m.memo_type = tx.memo_type && m.transaction_result = "tesSUCCESS"
    && sqlLike (regex_to_sql_pattern VERIFICATION_PROMPT_PATTERN_memo_data) m.memo_data
    && m.destination = tx.account

/-- The `WHERE` clause of the reward-history query of
`RewardResponseGenerator._get_task_context` (bounded lookback window;
`now` is the clock of the store's `NOW()`). -/
def isRewardHistoryRow (now : Nat) (tx : Tx) (m : DecodedMemo) : Bool :=
  m.account = tx.account && m.transaction_result = "tesSUCCESS"
    && sqlLike (regex_to_sql_pattern REWARD_PATTERN_memo_data) m.memo_data
    && (now - REWARD_PROCESSING_WINDOW * 86400 ≤ m.datetime)

/-- `ORDER BY datetime DESC LIMIT 1` over a filtered row list: the row with
the largest datetime (among equal datetimes the store's order is
unspecified; the model picks the last-listed such row). -/
def latestRow (l : List DecodedMemo) : Option DecodedMemo :=
  (sortDecodedByDt l).getLast?
where
  insertDec (a : DecodedMemo) : List DecodedMemo → List DecodedMemo
    | [] => [a]
    | b :: t => if a.datetime ≤ b.datetime then a :: b :: t else b :: insertDec a t
  sortDecodedByDt : List DecodedMemo → List DecodedMemo
    | [] => []
    | a :: t => insertDec a (sortDecodedByDt t)

/-- The context `_get_task_context` assembles for the arbitration call. -/
structure RewardContext where
  initial_task : String
  verification_prompt : String
  verification_response : String
  reward_history : String
  proposed_reward : String
  deriving DecidableEq, Repr

/-- `RewardResponseGenerator._get_task_context` over the `decoded_memos`
table: latest successful proposal and verification prompt for the request's
`memo_type` (each a hard `ValueError` when absent), the requester's recent
reward history, and the proposed reward parsed from the proposal's trailing
`..` segment. -/
def get_task_context (memos : List DecodedMemo) (now : Nat) (request_tx : Tx) :
    Except String RewardContext :=
  match latestRow (memos.filter (isProposalContextRow request_tx)) with
  | none => .error ("No original proposal found for memo_type: " ++ request_tx.memo_type)
  | some proposalRow =>
    let initial_task := proposalRow.memo_data
    match latestRow (memos.filter (isPromptContextRow request_tx)) with
    | none => .error ("No verification prompt found for memo_type: " ++ request_tx.memo_type)
    | some promptRow =>
      let verification_prompt := promptRow.memo_data
      let rewards := (sortByDtDescList (memos.filter (isRewardHistoryRow now request_tx)))
      let reward_history := joinSep "\n"
        (rewards.map (fun r => r.memo_data ++ " REWARD " ++ toString r.pft_absolute_amount.natAbs))
      let proposed_reward := pyStrip ((pySplit initial_task "..").getLastD initial_task)
      .ok { initial_task := initial_task,
            verification_prompt := verification_prompt,
            verification_response := request_tx.memo_data,
            reward_history := reward_history,
            proposed_reward := proposed_reward }
where
  sortByDtDescList (l : List DecodedMemo) : List DecodedMemo :=
    (latestRow.sortDecodedByDt l).reverse

/-- The result dict of `RewardResponseGenerator.evaluate_request`. -/
structure EvalResult where
  reward_amount : Int
  summary : String
  deriving DecidableEq, Repr

/-- `RewardResponseGenerator.evaluate_request`: assemble the task context
(aborting with the context's error when a link is missing), hand the
assembled prompts to the external arbitration call — whose returned message
text is the `content` parameter here — and extract the clamped reward and
the summary judgement from it. -/
def evaluate_request (memos : List DecodedMemo) (now : Nat) (request_tx : Tx)
    (content : String) : Except String EvalResult := do
  let _context ← get_task_context memos now request_tx
  .ok { reward_amount := extract_pft_reward content,
        summary := extract_summary_judgement content }

/-- `RewardResponseGenerator.construct_response`: the Reward memo (stage
literal followed by the summary) addressed back to the requester, paying
`reward_amount` PFT. -/
def construct_response (node_name : String) (request_tx : Tx)
    (evaluation_result : EvalResult) : ResponseParameters :=
  { source := node_name,
    memo := { memo_data := TaskType.REWARD.value ++ evaluation_result.summary,
              memo_format := node_name,
              memo_type := request_tx.memo_type },
    destination := request_tx.account,
    pft_amount := evaluation_result.reward_amount }

/-- The reward emission path: `evaluate_request` followed by
`construct_response`; an error in context assembly aborts before any
response parameters exist. -/
def reward_pipeline (memos : List DecodedMemo) (now : Nat) (request_tx : Tx)
    (node_name : String) (content : String) : Except String ResponseParameters := do
  let evaluation_result ← evaluate_request memos now request_tx content
  .ok (construct_response node_name request_tx evaluation_result)

/-! ### Concrete event transcripts used to exercise the definitions -/

/-- A Proposal event (task id `2024-01-01_00:00`, t = 1). -/
def exPropA : Memo :=
  { memo_type := "2024-01-01_00:00", memo_data := "PROPOSED PF ___ A",
    memo_format := "user1", datetime := 1 }

/-- A VerificationResponse event for the same task (t = 2, the newest). -/
def exVerifResp : Memo :=
  { memo_type := "2024-01-01_00:00", memo_data := "VERIFICATION RESPONSE ___ proof",
    memo_format := "user1", datetime := 2 }

/-- An Acceptance event for the same task (t = 3). -/
def exAccept : Memo :=
  { memo_type := "2024-01-01_00:00", memo_data := "ACCEPTANCE REASON ___ fine",
    memo_format := "user1", datetime := 3 }

/-- A lone Output event with no Proposal anywhere in its history. -/
def exOrphanOutput : Memo :=
  { memo_type := "2024-01-02_10:00", memo_data := "COMPLETION JUSTIFICATION ___ done",
    memo_format := "user1", datetime := 1 }

/-- A Refusal event for the orphan task id (t = 4). -/
def exOrphanRefusal : Memo :=
  { memo_type := "2024-01-02_10:00", memo_data := "REFUSAL REASON ___ no",
    memo_format := "user1", datetime := 4 }

/-- Proposal text `A`, task id `2024-01-03_09:00`, timestamp 5. -/
def exTieA : Memo :=
  { memo_type := "2024-01-03_09:00", memo_data := "PROPOSED PF ___ A",
    memo_format := "user1", datetime := 5 }

/-- Proposal text `B`, same task id and the same timestamp 5. -/
def exTieB : Memo :=
  { memo_type := "2024-01-03_09:00", memo_data := "PROPOSED PF ___ B",
    memo_format := "user1", datetime := 5 }

/-- Proposal at t = 1 for task id `2024-01-04_08:00`. -/
def exDistinctA : Memo :=
  { memo_type := "2024-01-04_08:00", memo_data := "PROPOSED PF ___ first",
    memo_format := "user1", datetime := 1 }

/-- Acceptance at t = 2 for the same task id. -/
def exDistinctB : Memo :=
  { memo_type := "2024-01-04_08:00", memo_data := "ACCEPTANCE REASON ___ yes",
    memo_format := "user1", datetime := 2 }

/-- A concrete verification-response request transaction. -/
def exTx : Tx :=
  { account := "rUSER", destination := "rNODE", close_time_iso := "2024-01-05T00:00:00Z",
    memo_type := "2024-01-01_00:00", memo_data := "VERIFICATION RESPONSE ___ proof" }

/-- A successful Proposal row of `decoded_memos` for `exTx`'s task. -/
def exPropMemo : DecodedMemo :=
  { memo_type := "2024-01-01_00:00", memo_data := "PROPOSED PF ___ do X .. 500",
    account := "rNODE", destination := "rUSER", transaction_result := "tesSUCCESS",
    datetime := 1, pft_absolute_amount := 0 }

/-- A successful VerificationPrompt row of `decoded_memos` for `exTx`'s task. -/
def exPromptMemo : DecodedMemo :=
  { memo_type := "2024-01-01_00:00", memo_data := "VERIFICATION PROMPT ___ prove it",
    account := "rNODE", destination := "rUSER", transaction_result := "tesSUCCESS",
    datetime := 2, pft_absolute_amount := 0 }

/-- An initiation-rite transaction to the node whose memo strips to fewer
than 10 characters. -/
def exShortRiteTx : Tx :=
  { account := "rUSER", destination := "rNODE", close_time_iso := "2024-01-05T00:00:00Z",
    memo_type := "INITIATION_RITE", memo_data := "  short  " }

/-- The response parameters the reward pipeline produces from `exPropMemo`,
`exPromptMemo`, `exTx` and an arbitration message awarding 5000 (clamped to
1200). -/
def exRewardParams : ResponseParameters :=
  { source := "NodeA",
    memo := { memo_data := "REWARD RESPONSE __ ok", memo_format := "NodeA",
              memo_type := "2024-01-01_00:00" },
    destination := "rUSER", pft_amount := 1200 }

/-! ### Lemmas about the stable timestamp sort -/

/-- The sort key order: earlier-or-equal timestamp. -/
def dtLe (a b : Memo) : Prop := a.datetime ≤ b.datetime

theorem mem_insertByDt {x a : Memo} {l : List Memo} :
    x ∈ insertByDt a l ↔ x = a ∨ x ∈ l := by
  induction l with
  | nil => simp [insertByDt]
  | cons b t ih =>
    simp only [insertByDt]
    split
    · simp [List.mem_cons]
    · simp only [List.mem_cons, ih]
      tauto

theorem mem_sortByDt {x : Memo} {l : List Memo} : x ∈ sortByDt l ↔ x ∈ l := by
  induction l with
  | nil => simp [sortByDt]
  | cons a t ih => simp [sortByDt, mem_insertByDt, ih]

theorem sorted_insertByDt {a : Memo} {l : List Memo} (h : l.Pairwise dtLe) :
    (insertByDt a l).Pairwise dtLe := by
  induction l with
  | nil => simp [insertByDt]
  | cons b t ih =>
    rcases List.pairwise_cons.mp h with ⟨hb, ht⟩
    simp only [insertByDt]
    split
    · rename_i hle
      refine List.pairwise_cons.mpr ⟨?_, h⟩
      intro x hx
      rcases List.mem_cons.mp hx with rfl | hx
      · exact hle
      · exact le_trans hle (hb x hx)
    · rename_i hgt
      refine List.pairwise_cons.mpr ⟨?_, ih ht⟩
      intro x hx
      rcases mem_insertByDt.mp hx with rfl | hx
      · exact le_of_not_le hgt
      · exact hb x hx

theorem sorted_sortByDt (l : List Memo) : (sortByDt l).Pairwise dtLe := by
  induction l with
  | nil => simp [sortByDt]
  | cons a t ih => exact sorted_insertByDt ih

/-! ### `find?` and `getLast?` on timestamp-sorted lists -/

theorem find?_min {l : List Memo} {p : Memo → Bool} {r : Memo}
    (hs : l.Pairwise dtLe) (hf : l.find? p = some r) :
    ∀ x ∈ l, p x = true → r.datetime ≤ x.datetime := by
  induction l with
  | nil => cases hf
  | cons a t ih =>
    rcases List.pairwise_cons.mp hs with ⟨ha, ht⟩
    rw [List.find?_cons] at hf
    cases hpa : p a with
    | true =>
      rw [hpa] at hf
      cases hf
      intro x hx hpx
      rcases List.mem_cons.mp hx with rfl | hx
      · exact le_refl _
      · exact ha x hx
    | false =>
      rw [hpa] at hf
      intro x hx hpx
      rcases List.mem_cons.mp hx with rfl | hx
      · simp [hpa] at hpx
      · exact ih ht hf x hx hpx

theorem mem_of_getLast? {l : List Memo} {r : Memo} (h : l.getLast? = some r) : r ∈ l := by
  induction l with
  | nil => cases h
  | cons a t ih =>
    cases t with
    | nil =>
      cases h
      exact List.mem_singleton_self _
    | cons b u =>
      rw [List.getLast?_cons_cons] at h
      exact List.mem_cons_of_mem _ (ih h)

theorem getLast?_max {l : List Memo} {r : Memo}
    (hs : l.Pairwise dtLe) (hl : l.getLast? = some r) :
    ∀ x ∈ l, x.datetime ≤ r.datetime := by
  induction l with
  | nil => cases hl
  | cons a t ih =>
    rcases List.pairwise_cons.mp hs with ⟨ha, ht⟩
    intro x hx
    cases t with
    | nil =>
      cases hl
      rcases List.mem_cons.mp hx with rfl | hx
      · exact le_refl _
      · cases hx
    | cons b u =>
      rw [List.getLast?_cons_cons] at hl
      rcases List.mem_cons.mp hx with rfl | hx
      · exact ha r (mem_of_getLast? hl)
      · exact ih ht hl x hx

/-- On two timestamp-sorted lists with the same members, over which the
timestamp determines the member, `find?` agrees. -/
theorem find?_eq_of_sorted {l₁ l₂ : List Memo} {p : Memo → Bool}
    (h₁ : l₁.Pairwise dtLe) (h₂ : l₂.Pairwise dtLe)
    (hmem : ∀ x, x ∈ l₁ ↔ x ∈ l₂)
    (hinj : ∀ a b, a ∈ l₁ → b ∈ l₁ → a.datetime = b.datetime → a = b) :
    l₁.find? p = l₂.find? p := by
  cases o₁ : l₁.find? p with
  | none =>
    cases o₂ : l₂.find? p with
    | none => rfl
    | some r =>
      have hr : r ∈ l₁ := (hmem r).mpr (List.mem_of_find?_eq_some o₂)
      have := List.find?_eq_none.mp o₁ r hr
      exact absurd (List.find?_some o₂) this
  | some r₁ =>
    cases o₂ : l₂.find? p with
    | none =>
      have hr : r₁ ∈ l₂ := (hmem r₁).mp (List.mem_of_find?_eq_some o₁)
      have := List.find?_eq_none.mp o₂ r₁ hr
      exact absurd (List.find?_some o₁) this
    | some r₂ =>
      have hm₁ : r₁ ∈ l₁ := List.mem_of_find?_eq_some o₁
      have hm₂ : r₂ ∈ l₂ := List.mem_of_find?_eq_some o₂
      have hm₂' : r₂ ∈ l₁ := (hmem r₂).mpr hm₂
      have hle₁ : r₁.datetime ≤ r₂.datetime :=
        find?_min h₁ o₁ r₂ hm₂' (List.find?_some o₂)
      have hle₂ : r₂.datetime ≤ r₁.datetime :=
        find?_min h₂ o₂ r₁ ((hmem r₁).mp hm₁) (List.find?_some o₁)
      have : r₁ = r₂ := hinj r₁ r₂ hm₁ hm₂' (le_antisymm hle₁ hle₂)
      rw [this]

/-- On two timestamp-sorted lists with the same members, over which the
timestamp determines the member, `getLast?` agrees. -/
theorem getLast?_eq_of_sorted {l₁ l₂ : List Memo}
    (h₁ : l₁.Pairwise dtLe) (h₂ : l₂.Pairwise dtLe)
    (hmem : ∀ x, x ∈ l₁ ↔ x ∈ l₂)
    (hinj : ∀ a b, a ∈ l₁ → b ∈ l₁ → a.datetime = b.datetime → a = b) :
    l₁.getLast? = l₂.getLast? := by
  cases o₁ : l₁.getLast? with
  | none =>
    cases o₂ : l₂.getLast? with
    | none => rfl
    | some r =>
      rw [List.getLast?_eq_none_iff.mp o₁] at hmem
      have hr : r ∈ ([] : List Memo) := (hmem r).mpr (mem_of_getLast? o₂)
      cases hr
  | some r₁ =>
    cases o₂ : l₂.getLast? with
    | none =>
      rw [List.getLast?_eq_none_iff.mp o₂] at hmem
      have hr : r₁ ∈ ([] : List Memo) := (hmem r₁).mp (mem_of_getLast? o₁)
      cases hr
    | some r₂ =>
      have hm₁ : r₁ ∈ l₁ := mem_of_getLast? o₁
      have hm₂' : r₂ ∈ l₁ := (hmem r₂).mpr (mem_of_getLast? o₂)
      have hle₁ : r₁.datetime ≤ r₂.datetime :=
        getLast?_max h₂ o₂ r₁ ((hmem r₁).mp hm₁)
      have hle₂ : r₂.datetime ≤ r₁.datetime := getLast?_max h₁ o₁ r₂ hm₂'
      have : r₁ = r₂ := hinj r₁ r₂ hm₁ hm₂' (le_antisymm hle₁ hle₂)
      rw [this]

/-! ### Unfolding the reducer to `find?`/`getLast?` over the sorted events -/

/-- An event of `rows` that the reducer counts as a Proposal for task `tid`:
its memo type holds a task id equal to `tid` and its memo data classifies as
`PROPOSAL`. -/
def isProposalEvent (tid : String) (m : Memo) : Bool :=
  is_valid_id m.memo_type
    && ((toTaskRow m).task_id = tid && (toTaskRow m).task_type = TaskType.PROPOSAL.name)

/-- An event of `rows` that the reducer counts as a state change for task
`tid`: a task id equal to `tid` and a classification among the four tracked
state-change types. -/
def isStateChangeEvent (tid : String) (m : Memo) : Bool :=
  is_valid_id m.memo_type
    && ((toTaskRow m).task_id = tid && STATE_CHANGE_TYPES.contains (toTaskRow m).task_type)

theorem isProposalEvent_iff {tid : String} {m : Memo} :
    isProposalEvent tid m = true
      ↔ is_valid_id m.memo_type = true ∧ m.memo_type = tid
          ∧ classify_task_string m.memo_data = TaskType.PROPOSAL.name := by
  simp [isProposalEvent, toTaskRow]

theorem isStateChangeEvent_iff {tid : String} {m : Memo} :
    isStateChangeEvent tid m = true
      ↔ is_valid_id m.memo_type = true ∧ m.memo_type = tid
          ∧ STATE_CHANGE_TYPES.contains (classify_task_string m.memo_data) = true := by
  simp [isStateChangeEvent, toTaskRow]

theorem filterMapChain (v : Memo → Bool) (q : TaskRow → Bool) (l : List Memo) :
    ((l.filter v).map toTaskRow).filter q
      = (l.filter (fun m => v m && q (toTaskRow m))).map toTaskRow := by
  induction l with
  | nil => rfl
  | cons a t ih =>
    cases hv : v a <;> cases hq : q (toTaskRow a) <;>
      simp [List.filter_cons, hv, hq, ih]

theorem head?_filterM (p : Memo → Bool) (l : List Memo) :
    (l.filter p).head? = l.find? p := by
  induction l with
  | nil => rfl
  | cons a t ih =>
    cases hp : p a <;> simp [List.filter_cons, List.find?_cons, hp, ih]

/-- `proposalOf` is the earliest event satisfying `isProposalEvent` in the
stable timestamp sort. -/
theorem proposalOf_eq (rows : List Memo) (tid : String) :
    proposalOf rows tid
      = ((sortByDt rows).find? (isProposalEvent tid)).map (fun m => m.memo_data) := by
  unfold proposalOf taskRows
  rw [filterMapChain, List.head?_map, head?_filterM, Option.map_map]
  rfl

/-- `lastStateChange` is the latest event satisfying `isStateChangeEvent` in
the stable timestamp sort. -/
theorem lastStateChange_eq (rows : List Memo) (tid : String) :
    lastStateChange rows tid
      = (((sortByDt rows).filter (isStateChangeEvent tid)).getLast?).map toTaskRow := by
  unfold lastStateChange taskRows
  rw [filterMapChain, List.getLast?_map]
  rfl

/-! ### Claim theorems -/

theorem mem_CLASSIFY_ORDER (t : TaskType) : t ∈ CLASSIFY_ORDER := by
  cases t <;> simp [CLASSIFY_ORDER]

/-- C8: `classify_task_string` is a total pure function of its input: for
every string it either returns the name of some `TaskType` one of whose
`TASK_PATTERNS` occurs in the string, or `"UNKNOWN"` when no pattern of any
task type occurs.  (Totality and freedom from external state are witnessed
by its very type: it is a Lean function of the string alone.) -/
theorem classify_total_spec (s : String) :
    (∃ t : TaskType, classify_task_string s = t.name
        ∧ ∃ p ∈ TASK_PATTERNS t, hasSubstr s p = true)
    ∨ (classify_task_string s = "UNKNOWN"
        ∧ ∀ t : TaskType, ∀ p ∈ TASK_PATTERNS t, hasSubstr s p = false) := by
  unfold classify_task_string
  cases hf : CLASSIFY_ORDER.find? (fun t => (TASK_PATTERNS t).any (fun p => hasSubstr s p)) with
  | some t =>
    left
    refine ⟨t, rfl, ?_⟩
    have hany := List.find?_some hf
    rcases List.any_eq_true.mp hany with ⟨p, hp, hps⟩
    exact ⟨p, hp, hps⟩
  | none =>
    right
    refine ⟨rfl, ?_⟩
    intro t p hp
    have hnone := List.find?_eq_none.mp hf t (mem_CLASSIFY_ORDER t)
    cases hb : hasSubstr s p with
    | false => rfl
    | true => exact absurd (List.any_eq_true.mpr ⟨p, hp, hb⟩) hnone

/-- C8 witness: the spec disjunction evaluated at a concrete unmatched
string. -/
theorem classify_total_spec_witness :
    (∃ t : TaskType, classify_task_string "plain chat message" = t.name
        ∧ ∃ p ∈ TASK_PATTERNS t, hasSubstr "plain chat message" p = true)
    ∨ (classify_task_string "plain chat message" = "UNKNOWN"
        ∧ ∀ t : TaskType, ∀ p ∈ TASK_PATTERNS t, hasSubstr "plain chat message" p = false) :=
  classify_total_spec "plain chat message"

/-- C7 counterexample: the memo data
`"ACCEPTANCE REASON ___ ok .. fine"` contains exactly one full stage
literal (the Acceptance literal) together with the shorter Proposal marker
`" .. "` in its free text, yet `classify_task_string` returns `PROPOSAL` —
the kind of the shorter marker — not `ACCEPTANCE`: the rules are applied in
registry order (Proposal first), not most-specific-first. -/
theorem classify_overlap_counterexample :
    hasSubstr "ACCEPTANCE REASON ___ ok .. fine" TaskType.ACCEPTANCE.value = true
    ∧ (∀ t : TaskType, t ≠ TaskType.ACCEPTANCE
        → hasSubstr "ACCEPTANCE REASON ___ ok .. fine" t.value = false)
    ∧ hasSubstr "ACCEPTANCE REASON ___ ok .. fine" " .. " = true
    ∧ classify_task_string "ACCEPTANCE REASON ___ ok .. fine" = TaskType.PROPOSAL.name
    ∧ TaskType.PROPOSAL.name ≠ TaskType.ACCEPTANCE.name := by
  decide

/-- C7 amended: classification applies the overlapping literal rules in
fixed registry order with Proposal (and its `" .. "` marker) first, not
most-specific-first: every memo-data string containing `" .. "` is
classified `PROPOSAL`, even when a full stage literal of a different kind
also occurs in it. -/
theorem classify_marker_first (s : String) (h : hasSubstr s " .. " = true) :
    classify_task_string s = TaskType.PROPOSAL.name := by
  have hp : (TASK_PATTERNS TaskType.PROPOSAL).any (fun p => hasSubstr s p) = true :=
    List.any_eq_true.mpr ⟨" .. ", by simp [TASK_PATTERNS], h⟩
  unfold classify_task_string CLASSIFY_ORDER
  rw [List.find?_cons, hp]

/-- C7 amended witness: the counterexample string itself. -/
theorem classify_marker_first_witness :
    classify_task_string "ACCEPTANCE REASON ___ ok .. fine" = TaskType.PROPOSAL.name :=
  classify_marker_first "ACCEPTANCE REASON ___ ok .. fine" (by decide)

/-- C10: `is_valid_initiation_rite` accepts exactly the strings whose
whitespace-stripped length is at least 10, so `validate` rejects every
initiation-rite transaction whose memo data strips to fewer than 10
characters — for every destination, in particular the node address. -/
theorem initiation_rite_min_length (s node_address : String) (tx : Tx)
    (h : (pyStrip tx.memo_data).length < 10) :
    (InitiationRiteRule.is_valid_initiation_rite s = true ↔ 10 ≤ (pyStrip s).length)
    ∧ InitiationRiteRule.validate node_address tx = false := by
  have hvalid : ∀ u : String, InitiationRiteRule.is_valid_initiation_rite u = true
      ↔ 10 ≤ (pyStrip u).length := by
    intro u
    by_cases hu : u = ""
    · subst hu
      simp [InitiationRiteRule.is_valid_initiation_rite, pyStrip]
    · have hrw : InitiationRiteRule.is_valid_initiation_rite u
          = if (pyStrip u).length < 10 then false else true := by
        unfold InitiationRiteRule.is_valid_initiation_rite
        rw [if_neg hu]
      rw [hrw]
      by_cases hlen : (pyStrip u).length < 10
      · rw [if_pos hlen]
        simp only [Bool.false_eq_true, false_iff]
        omega
      · rw [if_neg hlen]
        simp only [true_iff]
        omega
  refine ⟨hvalid s, ?_⟩
  unfold InitiationRiteRule.validate
  split
  · rfl
  · cases hb : InitiationRiteRule.is_valid_initiation_rite tx.memo_data with
    | false => rfl
    | true =>
      have := (hvalid tx.memo_data).mp hb
      omega

/-- C10 witness: the spec at a long rite and at a concrete short-rite
transaction addressed to the node. -/
theorem initiation_rite_min_length_witness :
    (InitiationRiteRule.is_valid_initiation_rite "a serious initiation rite" = true
      ↔ 10 ≤ (pyStrip "a serious initiation rite").length)
    ∧ InitiationRiteRule.validate "rNODE" exShortRiteTx = false :=
  initiation_rite_min_length "a serious initiation rite" "rNODE" exShortRiteTx (by decide)

/-- C2: for every verification-response request transaction, the
`find_response` query descriptor carries the request's account, destination
and close time, uses the request's own memo type as the response memo type
(so the task id matches), searches the Reward stage literal as SQL pattern
`%REWARD RESPONSE __ %`, and requires the response to come at or after the
request (`require_after_request := TRUE` in the query text). -/
theorem verification_find_response_spec (request_tx : Tx) :
    (VerificationResponseRule.find_response request_tx).params.account = request_tx.account
    ∧ (VerificationResponseRule.find_response request_tx).params.destination
        = request_tx.destination
    ∧ (VerificationResponseRule.find_response request_tx).params.request_time
        = request_tx.close_time_iso
    ∧ (VerificationResponseRule.find_response request_tx).params.response_memo_type
        = request_tx.memo_type
    ∧ (VerificationResponseRule.find_response request_tx).params.response_memo_data
        = "%" ++ TaskType.REWARD.value ++ "%"
    ∧ (VerificationResponseRule.find_response request_tx).require_after_request = true := by
  refine ⟨rfl, rfl, rfl, rfl, ?_, rfl⟩
  show regex_to_sql_pattern REWARD_PATTERN_memo_data = "%" ++ TaskType.REWARD.value ++ "%"
  decide

/-- C1: whatever text the external arbitration returns — negative score,
zero, unparsable, or far out of bounds — the extracted reward lies in
`[MIN_REWARD_AMOUNT, MAX_REWARD_AMOUNT] = [1, 1200]`, and the emitted
response parameters pay exactly that clamped amount. -/
theorem reward_amount_clamped (memos : List DecodedMemo) (now : Nat) (request_tx : Tx)
    (node_name content : String) (params : ResponseParameters)
    (h : reward_pipeline memos now request_tx node_name content = .ok params) :
    (MIN_REWARD_AMOUNT ≤ extract_pft_reward content
      ∧ extract_pft_reward content ≤ MAX_REWARD_AMOUNT)
    ∧ params.pft_amount = extract_pft_reward content
    ∧ MIN_REWARD_AMOUNT ≤ params.pft_amount
    ∧ params.pft_amount ≤ MAX_REWARD_AMOUNT := by
  have key : ∀ o : Option Int,
      MIN_REWARD_AMOUNT
        ≤ (match o with
            | some reward => min (max (reward.natAbs : Int) MIN_REWARD_AMOUNT) MAX_REWARD_AMOUNT
            | none => MIN_REWARD_AMOUNT)
      ∧ (match o with
          | some reward => min (max (reward.natAbs : Int) MIN_REWARD_AMOUNT) MAX_REWARD_AMOUNT
          | none => MIN_REWARD_AMOUNT) ≤ MAX_REWARD_AMOUNT := by
    intro o
    cases o with
    | none => exact ⟨le_refl _, by decide⟩
    | some r => exact ⟨le_min (le_max_right _ _) (by decide), min_le_right _ _⟩
  have hb : MIN_REWARD_AMOUNT ≤ extract_pft_reward content
      ∧ extract_pft_reward content ≤ MAX_REWARD_AMOUNT := key _
  have hp : params.pft_amount = extract_pft_reward content := by
    cases hc : get_task_context memos now request_tx with
    | error e =>
      simp [reward_pipeline, evaluate_request, hc, Bind.bind, Except.bind] at h
    | ok ctx =>
      simp [reward_pipeline, evaluate_request, hc, Bind.bind, Except.bind] at h
      rw [← h]
      rfl
  exact ⟨hb, hp, hp ▸ hb.1, hp ▸ hb.2⟩

/-- C1 witness: a full pipeline run in which the arbitration text awards
5000 and the emitted amount is the clamp 1200. -/
theorem reward_amount_clamped_witness :
    (MIN_REWARD_AMOUNT
        ≤ extract_pft_reward "| Summary Judgment | ok | Total PFT Rewarded | 5000 |"
      ∧ extract_pft_reward "| Summary Judgment | ok | Total PFT Rewarded | 5000 |"
        ≤ MAX_REWARD_AMOUNT)
    ∧ exRewardParams.pft_amount
        = extract_pft_reward "| Summary Judgment | ok | Total PFT Rewarded | 5000 |"
    ∧ MIN_REWARD_AMOUNT ≤ exRewardParams.pft_amount
    ∧ exRewardParams.pft_amount ≤ MAX_REWARD_AMOUNT :=
  reward_amount_clamped [exPropMemo, exPromptMemo] 100 exTx "NodeA"
    "| Summary Judgment | ok | Total PFT Rewarded | 5000 |" exRewardParams (by rfl)

/-- C9: when the context queries find no successful Proposal memo (or no
successful VerificationPrompt memo) for the request's memo type,
`_get_task_context` raises, and the whole reward path aborts with that
error: no response parameters are ever constructed. -/
theorem reward_context_missing_aborts (memos : List DecodedMemo) (now : Nat)
    (request_tx : Tx)
    (h : (∀ m ∈ memos, isProposalContextRow request_tx m = false)
        ∨ (∀ m ∈ memos, isPromptContextRow request_tx m = false)) :
    (∃ e, get_task_context memos now request_tx = .error e)
    ∧ ∀ node_name content, ∃ e,
        reward_pipeline memos now request_tx node_name content = .error e := by
  have hctx : ∃ e, get_task_context memos now request_tx = .error e := by
    cases h with
    | inl hp =>
      have hnil : memos.filter (isProposalContextRow request_tx) = [] :=
        List.filter_eq_nil_iff.mpr (by intro a ha; simp [hp a ha])
      refine ⟨"No original proposal found for memo_type: " ++ request_tx.memo_type, ?_⟩
      unfold get_task_context
      rw [hnil]
      rfl
    | inr hq =>
      have hnil : memos.filter (isPromptContextRow request_tx) = [] :=
        List.filter_eq_nil_iff.mpr (by intro a ha; simp [hq a ha])
      cases hlp : latestRow (memos.filter (isProposalContextRow request_tx)) with
      | none =>
        refine ⟨"No original proposal found for memo_type: " ++ request_tx.memo_type, ?_⟩
        unfold get_task_context
        rw [hlp]
      | some pr =>
        refine ⟨"No verification prompt found for memo_type: " ++ request_tx.memo_type, ?_⟩
        unfold get_task_context
        rw [hlp, hnil]
        rfl
  obtain ⟨e, he⟩ := hctx
  refine ⟨⟨e, he⟩, ?_⟩
  intro node_name content
  exact ⟨e, by simp [reward_pipeline, evaluate_request, he, Bind.bind, Except.bind]⟩

/-- C9 witness: with an empty `decoded_memos` table the context assembly and
the pipeline both abort. -/
theorem reward_context_missing_aborts_witness :
    (∃ e, get_task_context [] 0 exTx = .error e)
    ∧ ∃ e, reward_pipeline [] 0 exTx "NodeA" "any arbitration text" = .error e :=
  ⟨(reward_context_missing_aborts [] 0 exTx (Or.inl (by simp))).1,
   (reward_context_missing_aborts [] 0 exTx (Or.inl (by simp))).2 "NodeA"
     "any arbitration text"⟩

/-- C4: for every history with at least one Proposal-classified event for a
task id, the reducer's record exists and its proposal text is the text of a
timestamp-earliest Proposal event for that id (the stable sort breaks ties
by log order), so later Proposal events never change it: first-write-wins. -/
theorem reducer_first_proposal_wins (rows : List Memo) (tid : String)
    (h : ∃ m ∈ rows, isProposalEvent tid m = true) :
    ∃ r ∈ rows, isProposalEvent tid r = true
      ∧ (∀ m ∈ rows, isProposalEvent tid m = true → r.datetime ≤ m.datetime)
      ∧ ∃ rec, taskRecordOf rows tid = some rec ∧ rec.proposal = r.memo_data := by
  obtain ⟨m0, hm0, hp0⟩ := h
  have hms : m0 ∈ sortByDt rows := mem_sortByDt.mpr hm0
  cases o : (sortByDt rows).find? (isProposalEvent tid) with
  | none => exact absurd hp0 (List.find?_eq_none.mp o m0 hms)
  | some r =>
    have hrmem : r ∈ rows := mem_sortByDt.mp (List.mem_of_find?_eq_some o)
    have hrp : isProposalEvent tid r = true := List.find?_some o
    have hmin : ∀ m ∈ rows, isProposalEvent tid m = true → r.datetime ≤ m.datetime := by
      intro m hm hpm
      exact find?_min (sorted_sortByDt rows) o m (mem_sortByDt.mpr hm) hpm
    have hprop : proposalOf rows tid = some r.memo_data := by
      rw [proposalOf_eq, o]
      rfl
    refine ⟨r, hrmem, hrp, hmin, ?_⟩
    unfold taskRecordOf
    rw [hprop]
    cases h2 : lastStateChange rows tid with
    | none => exact ⟨_, rfl, rfl⟩
    | some sc => exact ⟨_, rfl, rfl⟩

/-- C4 witness: a two-event history whose record carries the (single,
earliest) Proposal text. -/
theorem reducer_first_proposal_wins_witness :
    ∃ r ∈ [exVerifResp, exPropA], isProposalEvent "2024-01-01_00:00" r = true
      ∧ (∀ m ∈ [exVerifResp, exPropA],
          isProposalEvent "2024-01-01_00:00" m = true → r.datetime ≤ m.datetime)
      ∧ ∃ rec, taskRecordOf [exVerifResp, exPropA] "2024-01-01_00:00" = some rec
          ∧ rec.proposal = r.memo_data :=
  reducer_first_proposal_wins [exVerifResp, exPropA] "2024-01-01_00:00"
    ⟨exPropA, by decide, by decide⟩

/-- C3 counterexample: on the history `[Proposal @1, VerificationResponse
@2]` the timestamp-latest of the six lifecycle kinds is the
VerificationResponse event, yet the reducer leaves the record in `PROPOSAL`
state with empty `latest_state`: `VERIFICATION_RESPONSE` (and likewise
`TASK_OUTPUT`) is not in the reducer's state-change `isin` list, so only
four of the six kinds overwrite the state. -/
theorem reducer_six_kinds_counterexample :
    classify_task_string exVerifResp.memo_data = TaskType.VERIFICATION_RESPONSE.name
    ∧ is_valid_id exVerifResp.memo_type = true
    ∧ exPropA.datetime < exVerifResp.datetime
    ∧ taskRecordOf [exPropA, exVerifResp] "2024-01-01_00:00"
        = some { proposal := "PROPOSED PF ___ A", state_type := TaskType.PROPOSAL.name,
                 latest_state := "", datetime := none }
    ∧ TaskType.PROPOSAL.name ≠ TaskType.VERIFICATION_RESPONSE.name := by
  decide

/-- C3 amended: the record's `state_type`/`latest_state`/`datetime` are
taken from the timestamp-latest event classified as one of the *four*
tracked kinds `ACCEPTANCE`, `REFUSAL`, `VERIFICATION_PROMPT`, `REWARD`
(ties broken by log order by the stable sort); `TASK_OUTPUT` and
`VERIFICATION_RESPONSE` events never overwrite the recorded state. -/
theorem reducer_state_last_write_wins (rows : List Memo) (tid : String)
    (h : ∃ m ∈ rows, isStateChangeEvent tid m = true) :
    ∃ r ∈ rows, isStateChangeEvent tid r = true
      ∧ (∀ m ∈ rows, isStateChangeEvent tid m = true → m.datetime ≤ r.datetime)
      ∧ ∃ rec, taskRecordOf rows tid = some rec
          ∧ rec.state_type = classify_task_string r.memo_data
          ∧ rec.latest_state = r.memo_data
          ∧ rec.datetime = some r.datetime := by
  obtain ⟨m0, hm0, hp0⟩ := h
  have hmf : m0 ∈ (sortByDt rows).filter (isStateChangeEvent tid) :=
    List.mem_filter.mpr ⟨mem_sortByDt.mpr hm0, hp0⟩
  cases o : ((sortByDt rows).filter (isStateChangeEvent tid)).getLast? with
  | none =>
    rw [List.getLast?_eq_none_iff.mp o] at hmf
    cases hmf
  | some r =>
    have hrf := mem_of_getLast? o
    have hrmem : r ∈ rows := mem_sortByDt.mp (List.mem_filter.mp hrf).1
    have hrp : isStateChangeEvent tid r = true := (List.mem_filter.mp hrf).2
    have hmax : ∀ m ∈ rows, isStateChangeEvent tid m = true → m.datetime ≤ r.datetime := by
      intro m hm hpm
      exact getLast?_max (List.Pairwise.filter _ (sorted_sortByDt rows)) o m
        (List.mem_filter.mpr ⟨mem_sortByDt.mpr hm, hpm⟩)
    have hlast : lastStateChange rows tid = some (toTaskRow r) := by
      rw [lastStateChange_eq, o]
      rfl
    refine ⟨r, hrmem, hrp, hmax, ?_⟩
    unfold taskRecordOf
    rw [hlast]
    cases hpp : proposalOf rows tid with
    | none => exact ⟨_, rfl, rfl, rfl, rfl⟩
    | some p => exact ⟨_, rfl, rfl, rfl, rfl⟩

/-- C3 amended witness: with a Proposal, a VerificationResponse and an
Acceptance in the history, the Acceptance (latest tracked state change)
provides the record's state fields. -/
theorem reducer_state_last_write_wins_witness :
    ∃ r ∈ [exPropA, exVerifResp, exAccept], isStateChangeEvent "2024-01-01_00:00" r = true
      ∧ (∀ m ∈ [exPropA, exVerifResp, exAccept],
          isStateChangeEvent "2024-01-01_00:00" m = true → m.datetime ≤ r.datetime)
      ∧ ∃ rec, taskRecordOf [exPropA, exVerifResp, exAccept] "2024-01-01_00:00" = some rec
          ∧ rec.state_type = classify_task_string r.memo_data
          ∧ rec.latest_state = r.memo_data
          ∧ rec.datetime = some r.datetime :=
  reducer_state_last_write_wins [exPropA, exVerifResp, exAccept] "2024-01-01_00:00"
    ⟨exAccept, by decide, by decide⟩

/-- C5 counterexample: a lone Output-classified lifecycle event with a valid
task id and no Proposal anywhere yields *no* record at all — the orphan is
silently dropped, because `TASK_OUTPUT` is outside the reducer's tracked
state-change kinds and outside the proposal bucket. -/
theorem orphan_lifecycle_dropped_counterexample :
    classify_task_string exOrphanOutput.memo_data = TaskType.TASK_OUTPUT.name
    ∧ is_valid_id exOrphanOutput.memo_type = true
    ∧ (∀ m ∈ [exOrphanOutput], classify_task_string m.memo_data ≠ TaskType.PROPOSAL.name)
    ∧ taskRecordOf [exOrphanOutput] "2024-01-02_10:00" = none := by
  decide

/-- C5 amended: an orphaned state-change event of one of the four *tracked*
kinds (`ACCEPTANCE`, `REFUSAL`, `VERIFICATION_PROMPT`, `REWARD`) for a task
id with no Proposal-classified event is never dropped: the reducer still
emits a record for that id, marked by an empty proposal text, carrying the
state change; orphan `TASK_OUTPUT`/`VERIFICATION_RESPONSE` events, however,
yield no record. -/
theorem orphan_state_change_kept (rows : List Memo) (tid : String)
    (hnp : ∀ m ∈ rows, isProposalEvent tid m = false)
    (h : ∃ m ∈ rows, isStateChangeEvent tid m = true) :
    ∃ rec, taskRecordOf rows tid = some rec
      ∧ rec.proposal = ""
      ∧ STATE_CHANGE_TYPES.contains rec.state_type = true := by
  have hprop : proposalOf rows tid = none := by
    rw [proposalOf_eq]
    have hn : (sortByDt rows).find? (isProposalEvent tid) = none :=
      List.find?_eq_none.mpr (fun x hx => by simp [hnp x (mem_sortByDt.mp hx)])
    rw [hn]
    rfl
  obtain ⟨m0, hm0, hp0⟩ := h
  have hmf : m0 ∈ (sortByDt rows).filter (isStateChangeEvent tid) :=
    List.mem_filter.mpr ⟨mem_sortByDt.mpr hm0, hp0⟩
  cases o : ((sortByDt rows).filter (isStateChangeEvent tid)).getLast? with
  | none =>
    rw [List.getLast?_eq_none_iff.mp o] at hmf
    cases hmf
  | some r =>
    have hrp : isStateChangeEvent tid r = true :=
      (List.mem_filter.mp (mem_of_getLast? o)).2
    have hlast : lastStateChange rows tid = some (toTaskRow r) := by
      rw [lastStateChange_eq, o]
      rfl
    unfold taskRecordOf
    rw [hprop, hlast]
    exact ⟨_, rfl, rfl, (isStateChangeEvent_iff.mp hrp).2.2⟩

/-- C5 amended witness: an orphan Refusal is kept, flagged by its empty
proposal text. -/
theorem orphan_state_change_kept_witness :
    ∃ rec, taskRecordOf [exOrphanRefusal] "2024-01-02_10:00" = some rec
      ∧ rec.proposal = ""
      ∧ STATE_CHANGE_TYPES.contains rec.state_type = true :=
  orphan_state_change_kept [exOrphanRefusal] "2024-01-02_10:00" (by decide)
    ⟨exOrphanRefusal, by decide, by decide⟩

/-- C6 counterexample: duplicating an existing event and reordering can
change the result when two distinct events share a timestamp: the history
`[Proposal A @5, Proposal B @5]` reduces to proposal text `A`, but the same
events extended with an exact duplicate of the `B` row (placed first)
reduce to proposal text `B` — the stable sort keeps the duplicate ahead of
`A`, and `groupby.first` picks it. -/
theorem reduce_duplicates_counterexample :
    (∀ x, x ∈ [exTieB, exTieA, exTieB] ↔ x ∈ [exTieA, exTieB])
    ∧ taskRecordOf [exTieA, exTieB] "2024-01-03_09:00"
        ≠ taskRecordOf [exTieB, exTieA, exTieB] "2024-01-03_09:00" := by
  constructor
  · intro x
    simp only [List.mem_cons, List.not_mem_nil, or_false]
    tauto
  · decide

/-- C6 amended: when no two distinct events of `E` share a timestamp, the
reducer is insensitive to exact duplicates and reordering: any list with
the same underlying events as `E` — in particular `E` extended with exact
duplicates of its rows, in any order — reduces to the same record for every
task id. -/
theorem reduce_duplicates_invariant (E E2 : List Memo)
    (hinj : ∀ a ∈ E, ∀ b ∈ E, a.datetime = b.datetime → a = b)
    (hmem : ∀ x, x ∈ E2 ↔ x ∈ E) :
    ∀ tid, taskRecordOf E tid = taskRecordOf E2 tid := by
  intro tid
  have hmemS : ∀ x, x ∈ sortByDt E ↔ x ∈ sortByDt E2 := by
    intro x
    rw [mem_sortByDt, mem_sortByDt, hmem]
  have hinjS : ∀ a b, a ∈ sortByDt E → b ∈ sortByDt E → a.datetime = b.datetime → a = b := by
    intro a b ha hb
    exact hinj a (mem_sortByDt.mp ha) b (mem_sortByDt.mp hb)
  have hfind : (sortByDt E).find? (isProposalEvent tid)
      = (sortByDt E2).find? (isProposalEvent tid) :=
    find?_eq_of_sorted (sorted_sortByDt E) (sorted_sortByDt E2) hmemS hinjS
  have hlastq : ((sortByDt E).filter (isStateChangeEvent tid)).getLast?
      = ((sortByDt E2).filter (isStateChangeEvent tid)).getLast? := by
    apply getLast?_eq_of_sorted
      (List.Pairwise.filter _ (sorted_sortByDt E))
      (List.Pairwise.filter _ (sorted_sortByDt E2))
    · intro x
      simp only [List.mem_filter]
      rw [hmemS x]
    · intro a b ha hb
      exact hinjS a b (List.mem_filter.mp ha).1 (List.mem_filter.mp hb).1
  unfold taskRecordOf
  rw [proposalOf_eq, proposalOf_eq, lastStateChange_eq, lastStateChange_eq, hfind, hlastq]

/-- C6 amended witness: with distinct timestamps, appending a duplicate and
shuffling leaves the record unchanged. -/
theorem reduce_duplicates_invariant_witness :
    taskRecordOf [exDistinctA, exDistinctB] "2024-01-04_08:00"
      = taskRecordOf [exDistinctB, exDistinctA, exDistinctB] "2024-01-04_08:00" :=
  reduce_duplicates_invariant [exDistinctA, exDistinctB]
    [exDistinctB, exDistinctA, exDistinctB]
    (by decide)
    (by
      intro x
      simp only [List.mem_cons, List.not_mem_nil, or_false]
      tauto)
    "2024-01-04_08:00"

end PftNode
